import Mathlib

/-!
# Verification of the session/event-log core (`src/server/src/session.ts`)

This file is a shallow embedding of the session lifecycle and event-replay
core of the repository: the `Session` class (event buffer, durable JSONL
stream, status state machine, subscriber fan-out, destroy) and the
`SessionManager` (registry, resume).  Pure state manipulation is modelled as
functions on an explicit `SessionState`; wall-clock timestamps
(`Date.now() / 1000`) are passed in as explicit rational arguments; the
child process, readline interface and write stream are modelled by booleans
recording whether the corresponding handle is non-null; the durable JSONL
file is modelled as the list of lines written to it.  JavaScript `number`
values used for money and timestamps are modelled as `ℚ`; the envelope
`id` field is modelled as `Nat` (every id the system itself writes is a
non-negative integer).
-/

set_option maxHeartbeats 1000000

/-- `SessionStatus` — the TypeScript union
`'starting' | 'ready' | 'busy' | 'waiting_for_input' | 'dead'`. -/
inductive SessionStatus where
  | starting
  | ready
  | busy
  | waitingForInput
  | dead
deriving DecidableEq

/-- The fields of a parsed stdout JSON message that `session.ts` inspects:
`parsed.type`, `parsed.subtype`, `parsed.session_id`,
`parsed.request?.subtype`, `parsed.cost_usd`, `parsed.total_cost_usd`.
A `none` field models an absent (or non-number, for the cost fields)
property; `session_id` is modelled as present only when truthy, matching
the guards in the source. -/
structure Msg where
  type : Option String := none
  subtype : Option String := none
  sessionId : Option String := none
  requestSubtype : Option String := none
  costUsd : Option ℚ := none
  totalCostUsd : Option ℚ := none
deriving DecidableEq

/-- The `data` payload of a `BufferedEvent`.  The core treats payloads as
opaque; this inductive distinguishes exactly the shapes `session.ts` itself
produces or inspects: `{status}` objects, parsed protocol messages,
`{code, signal}` exit records, `{message}` error records, raw/stderr text,
the metadata object `createSession` writes as the file's first line, and an
opaque catch-all for anything else. -/
inductive EventData where
  | statusData (st : SessionStatus)
  | messageData (m : Msg)
  | exitData (code : Option Int) (signal : Option String)
  | errorData (message : String)
  | textData (tag : String) (text : String)
  | metaData (workingDirectory : String) (model : Option String)
      (resumeConversationId : Option String)
  | otherData (raw : String)
deriving DecidableEq

/-- `BufferedEvent` — `{id: number, event: string, data: unknown,
timestamp: number}` (src/server/src/session.ts:11-16). -/
structure BufferedEvent where
  id : Nat
  event : String
  data : EventData
  timestamp : ℚ
deriving DecidableEq

/-- One line of a durable JSONL file: either a line that parses to a
`BufferedEvent`, or a malformed line (`JSON.parse` throws).  A file is its
list of non-empty lines: every write appends exactly one line terminated by
a newline, so the only empty segment of `split('\n')` is the trailing one,
which every reader discards (`filter(Boolean)` / falsy-check). -/
inductive FileLine where
  | goodLine (e : BufferedEvent)
  | badLine (raw : String)
deriving DecidableEq

/-- ECMAScript `Array.prototype.slice(start)` (one-argument form).
A negative `start` counts from the end, clamped at 0; note that `-0 = 0`,
so `slice(-0)` is `slice(0)` — the whole array.  Modelling `start` as `Int`
reproduces this exactly, because `-(0 : Int) = 0` fails the `start < 0`
test. -/
def jsSlice {α : Type} (arr : List α) (start : Int) : List α :=
  if start < 0 then arr.drop (arr.length - start.natAbs)
  else arr.drop start.toNat

/-- The state of one `Session` object, restricted to the fields the claims
are about.  `processAlive`, `stdoutRl` and `hasJsonl` record whether
`this.process`, `this.stdoutRl` and `this.jsonlStream` are non-null.
`file` is the durable JSONL stream's contents: the envelopes written by
`pushEvent` (each serialized envelope is one well-formed line).
`fannedOut` records every envelope handed to the subscriber fan-out loop
of `pushEvent` — the complete list of envelopes any subscriber can ever
have received. -/
structure SessionState where
  status : SessionStatus
  totalCostUsd : ℚ
  buffer : List BufferedEvent
  bufferSize : Nat
  eventCounter : Nat
  subscribers : List Nat
  processAlive : Bool
  stdoutRl : Bool
  hasJsonl : Bool
  file : List BufferedEvent
  fannedOut : List BufferedEvent
deriving DecidableEq

/-- A freshly constructed `Session` (constructor,
src/server/src/session.ts:46-63): status `starting`, zero cost, empty
buffer, event counter 0, no subscribers, no process; `hasJsonl` is true
iff a `jsonlPath` was supplied. -/
def freshSession (bufferSize : Nat) (hasJsonl : Bool) : SessionState :=
  { status := SessionStatus.starting
    totalCostUsd := 0
    buffer := []
    bufferSize := bufferSize
    eventCounter := 0
    subscribers := []
    processAlive := false
    stdoutRl := false
    hasJsonl := hasJsonl
    file := []
    fannedOut := [] }

/-- `Session.pushEvent` (src/server/src/session.ts:360-389): builds the
envelope with `id = ++this.eventCounter`, pushes it onto the buffer,
evicts the single oldest entry if the buffer now exceeds `bufferSize`
(`shift`), writes the serialized envelope to the JSONL stream when one is
open, and hands the envelope to the subscriber fan-out loop.  Returns the
new state together with the envelope built. -/
def pushEvent (s : SessionState) (event : String) (data : EventData)
    (now : ℚ) : SessionState × BufferedEvent :=
  let buffered : BufferedEvent :=
    { id := s.eventCounter + 1, event := event, data := data, timestamp := now }
  let grown := s.buffer ++ [buffered]
  let trimmed := if s.bufferSize < grown.length then grown.drop 1 else grown
  ({ s with
      eventCounter := s.eventCounter + 1
      buffer := trimmed
      file := if s.hasJsonl then s.file ++ [buffered] else s.file
      fannedOut := s.fannedOut ++ [buffered] },
   buffered)

/-- `Session.getHistory` (src/server/src/session.ts:142-145):
`if (lines >= this.buffer.length) return [...this.buffer];
return this.buffer.slice(-lines);`.  The negation of the requested count
happens in `Int`, faithfully reproducing `slice(-0) = slice(0)`. -/
def getHistory (s : SessionState) (lines : Nat) : List BufferedEvent :=
  if s.buffer.length ≤ lines then s.buffer
  else jsSlice s.buffer (-(lines : Int))

/-- `Session.updateStatusFromMessage` (src/server/src/session.ts:324-358).
An absent or empty `type` returns early with no change (an empty string is
falsy and also matches none of the compared tags).  `'assistant'` and
`'control_request'`/`'can_use_tool'` move a non-dead session to
busy / waiting_for_input with a status envelope; `'result'` moves a
non-dead session to ready with a status envelope and then — outside the
dead-guard — assigns `cost_usd` and then `total_cost_usd` to
`totalCostUsd` whenever each is a number. -/
def updateStatusFromMessage (s : SessionState) (parsed : Msg) (now : ℚ) :
    SessionState :=
  match parsed.type with
  | none => s
  | some t =>
    if t = "assistant" then
      if s.status ≠ SessionStatus.dead then
        (pushEvent { s with status := SessionStatus.busy } "status"
          (EventData.statusData SessionStatus.busy) now).1
      else s
    else if t = "control_request" then
      if parsed.requestSubtype = some "can_use_tool" ∧
          s.status ≠ SessionStatus.dead then
        (pushEvent { s with status := SessionStatus.waitingForInput } "status"
          (EventData.statusData SessionStatus.waitingForInput) now).1
      else s
    else if t = "result" then
      let s1 :=
        if s.status ≠ SessionStatus.dead then
          (pushEvent { s with status := SessionStatus.ready } "status"
            (EventData.statusData SessionStatus.ready) now).1
        else s
      let s2 :=
        match parsed.costUsd with
        | some c => { s1 with totalCostUsd := c }
        | none => s1
      match parsed.totalCostUsd with
      | some c => { s2 with totalCostUsd := c }
      | none => s2
    else s

/-- The cost figure a message effectively reports: `total_cost_usd` when it
is a number, else `cost_usd` when it is a number (the source assigns
`cost_usd` first and `total_cost_usd` second, so the latter wins). -/
def Msg.effectiveCost (m : Msg) : Option ℚ :=
  match m.totalCostUsd with
  | some c => some c
  | none => m.costUsd

/-- A termination signal sent by `Session.destroy`. -/
inductive KillAction where
  | sigterm
  | sigkill
deriving DecidableEq

/-- `Session.destroy` (src/server/src/session.ts:175-210).  If the process
handle is already null or the status is already `dead`, it only (re)sets
the status to `dead` and returns — no signal is sent and no stream is
touched.  Otherwise it sends SIGTERM, races the exit event against a
5-second timer (`exitedWithinGrace` — true when the exit won), sends
SIGKILL when the grace period elapsed and the handle is still non-null at
that point (`processAliveAfterWait` — the exit handler may have nulled it
concurrently), and finally marks `dead`, closes and nulls the readline
interface, ends and nulls the JSONL stream, and nulls the process handle.
Returns the new state and the signals sent. -/
def Session.destroy (s : SessionState) (exitedWithinGrace : Bool)
    (processAliveAfterWait : Bool) : SessionState × List KillAction :=
  if s.processAlive = false ∨ s.status = SessionStatus.dead then
    ({ s with status := SessionStatus.dead }, [])
  else
    let kills :=
      [KillAction.sigterm] ++
        (if exitedWithinGrace = false ∧ processAliveAfterWait = true then
          [KillAction.sigkill]
        else [])
    ({ s with
        status := SessionStatus.dead
        stdoutRl := false
        hasJsonl := false
        processAlive := false },
     kills)

/-- One iteration of the loop body of `Session.loadBufferFromFile`
(src/server/src/session.ts:245-255): a line that parses is pushed onto the
buffer and raises `eventCounter` to its `id` when larger; a malformed line
is skipped. -/
def loadLine (s : SessionState) (l : FileLine) : SessionState :=
  match l with
  | FileLine.goodLine e =>
    { s with
        buffer := s.buffer ++ [e]
        eventCounter := if s.eventCounter < e.id then e.id else s.eventCounter }
  | FileLine.badLine _ => s

/-- `Session.loadBufferFromFile` (src/server/src/session.ts:241-264):
folds `loadLine` over the file's lines, then trims the buffer to the last
`bufferSize` entries via `this.buffer.slice(-this.bufferSize)` — only when
the buffer strictly exceeds `bufferSize` (again through `jsSlice`, so a
configured size of 0 would trim nothing, as in the source). -/
def loadBufferFromFile (s : SessionState) (lines : List FileLine) :
    SessionState :=
  let s1 := lines.foldl loadLine s
  if s1.bufferSize < s1.buffer.length then
    { s1 with buffer := jsSlice s1.buffer (-(s1.bufferSize : Int)) }
  else s1

/-- The events of the well-formed lines of a file, in order. -/
def goodEvents (lines : List FileLine) : List BufferedEvent :=
  lines.filterMap fun l =>
    match l with
    | FileLine.goodLine e => some e
    | FileLine.badLine _ => none

/-- An operation on a session interleavable with appends: an append
(`pushEvent`), a subscriber registration (`Session.subscribe`,
src/server/src/session.ts:130-132 — `Set.add`, a no-op on an already
registered callback, else appended in insertion order) or a removal
(`Session.unsubscribe`, src/server/src/session.ts:134-136 —
`Set.delete`).  Callbacks are identified by opaque numbers. -/
inductive SOp where
  | push (event : String) (data : EventData) (now : ℚ)
  | subscribeOp (fn : Nat)
  | unsubscribeOp (fn : Nat)

/-- Apply one operation; a push also returns the envelope produced. -/
def applyOp (s : SessionState) : SOp → SessionState × Option BufferedEvent
  | SOp.push event data now =>
    let r := pushEvent s event data now
    (r.1, some r.2)
  | SOp.subscribeOp fn =>
    ({ s with
        subscribers :=
          if fn ∈ s.subscribers then s.subscribers else s.subscribers ++ [fn] },
     none)
  | SOp.unsubscribeOp fn =>
    ({ s with subscribers := s.subscribers.erase fn }, none)

/-- Run a sequence of operations, collecting the envelopes the pushes
produced, in order. -/
def runOps : SessionState → List SOp → SessionState × List BufferedEvent
  | s, [] => (s, [])
  | s, op :: rest =>
    let r := applyOp s op
    let rec' := runOps r.1 rest
    (rec'.1, r.2.toList ++ rec'.2)

/-- The number of `push` operations in a sequence. -/
def pushCount (ops : List SOp) : Nat :=
  (ops.filter fun op =>
    match op with
    | SOp.push _ _ _ => true
    | _ => false).length

/-- Run a sequence of plain appends (event, data, timestamp). -/
def runAppends (s : SessionState) (appends : List (String × EventData × ℚ)) :
    SessionState :=
  (runOps s (appends.map fun a => SOp.push a.1 a.2.1 a.2.2)).1

/-- The metadata line `SessionManager.createSession` writes to the durable
file before attaching the process (src/server/src/session.ts:433-441):
`{id: 0, event: 'meta', timestamp, data: {working_directory, model,
resume_conversation_id}}` — written with `appendFileSync`, not through
`pushEvent`, so it reaches no subscriber and leaves the event counter
untouched. -/
def metaEvent (now : ℚ) (cwd : String) (model resumeId : Option String) :
    BufferedEvent :=
  { id := 0
    event := "meta"
    data := EventData.metaData cwd model resumeId
    timestamp := now }

/-- The durable file of a session created by `createSession` after a run of
operations: the metadata first line followed by every envelope `pushEvent`
persisted. -/
def createdFile (metaNow : ℚ) (cwd : String) (model resumeId : Option String)
    (bufferSize : Nat) (ops : List SOp) : List BufferedEvent :=
  metaEvent metaNow cwd model resumeId ::
    (runOps (freshSession bufferSize true) ops).1.file

/-- An action a subscriber callback may perform on the session while it is
being invoked: `Session.subscribe` or `Session.unsubscribe` of some
callback (callbacks identified by opaque numbers). -/
inductive SubAction where
  | subAct (fn : Nat)
  | unsubAct (fn : Nat)
deriving DecidableEq

/-- Effect of one `subscribe`/`unsubscribe` call on the subscriber `Set`,
viewed during iteration as `(visited, pending)`: the already-yielded
members and the not-yet-yielded members, both in insertion order (the full
set, in insertion order, is `visited ++ pending`).  ECMAScript `Set`
semantics: `add` of a present member is a no-op, `add` of an absent member
appends it in insertion order — and a live iterator WILL later yield it;
`delete` removes the member wherever it is — a deleted not-yet-yielded
member will never be yielded. -/
def applySubAction (pq : List Nat × List Nat) (a : SubAction) :
    List Nat × List Nat :=
  match a with
  | SubAction.subAct fn =>
    if fn ∈ pq.1 ∨ fn ∈ pq.2 then pq else (pq.1, pq.2 ++ [fn])
  | SubAction.unsubAct fn => (pq.1.erase fn, pq.2.erase fn)

/-- The subscriber fan-out loop of `Session.pushEvent`
(src/server/src/session.ts:382-388): `for (const fn of this.subscribers)`
over the LIVE `Set` — no snapshot is taken.  Each pending callback is
yielded (moved to the visited part: at call time it has been yielded and
is still a member), then invoked; its behaviour `beh fn` is the sequence
of subscribe/unsubscribe calls it performs for this envelope (a callback
that throws is caught, which for the set's evolution is the same as
performing a prefix of its actions — behaviours are arbitrary, so this is
covered).  Because callbacks may keep subscribing fresh callbacks, the
loop need not terminate; `fuel` bounds the number of iterations modelled.
Returns the invocation sequence and the final set. -/
def deliverLoop (beh : Nat → List SubAction) :
    Nat → List Nat → List Nat → List Nat → List Nat × List Nat
  | _, visited, [], invoked => (invoked, visited)
  | 0, visited, _, invoked => (invoked, visited)
  | Nat.succ fuel, visited, c :: rest, invoked =>
    let pq := (beh c).foldl applySubAction (visited ++ [c], rest)
    deliverLoop beh fuel pq.1 pq.2 (invoked ++ [c])

/-- Deliver one appended envelope to the subscriber set `subs` (insertion
order), where `beh fn` is what callback `fn` does when invoked with that
envelope.  Returns (callbacks invoked with this envelope, in order; final
subscriber set). -/
def deliver (beh : Nat → List SubAction) (fuel : Nat) (subs : List Nat) :
    List Nat × List Nat :=
  deliverLoop beh fuel [] subs []

/-- The result of `Session.readSessionMeta`
(src/server/src/session.ts:270-322) when the file is readable. -/
structure MetaInfo where
  sessionId : String
  cliSessionId : Option String
  createdAt : ℚ
  lastActiveAt : ℚ
deriving DecidableEq

/-- The upstream conversation identifier a stored envelope carries, if any:
`evt.event === 'message' && typeof evt.data === 'object' && evt.data !==
null && evt.data.type === 'system' && evt.data.subtype === 'init' &&
evt.data.session_id` (truthy: a non-empty string). -/
def initSessionIdOf (evt : BufferedEvent) : Option String :=
  if evt.event = "message" then
    match evt.data with
    | EventData.messageData m =>
      if m.type = some "system" ∧ m.subtype = some "init" then
        match m.sessionId with
        | some sid => if sid = "" then none else some sid
        | none => none
      else none
    | _ => none
  else none

/-- `Session.readSessionMeta` (src/server/src/session.ts:270-322) on a
readable file: scans every parseable line; `createdAt` is the first
timestamp seen (kept while the running value is 0, as in the source),
`lastActiveAt` the last; `cliSessionId` is the last system-init
`session_id` found; the session id is the file's basename. -/
def readSessionMeta (basename : String) (lines : List FileLine) : MetaInfo :=
  let st :=
    lines.foldl
      (fun (acc : Option String × ℚ × ℚ) l =>
        match l with
        | FileLine.badLine _ => acc
        | FileLine.goodLine evt =>
          ((initSessionIdOf evt).elim acc.1 some,
           if acc.2.1 = 0 then evt.timestamp else acc.2.1,
           evt.timestamp))
      (none, 0, 0)
  { sessionId := basename
    cliSessionId := st.1
    createdAt := st.2.1
    lastActiveAt := st.2.2 }

/-- `process.cwd()` of the server, modelled as an opaque constant. -/
def defaultCwd : String := "/"

/-- `SessionManager` state (src/server/src/session.ts:392-405): the
`Map<string, Session>` of sessions (insertion order) and the configuration
fields the modelled operations read. -/
structure ManagerState where
  sessions : List (String × SessionState)
  maxSessions : Nat
  bufferSize : Nat
deriving DecidableEq

/-- `this.sessions.get(id)`. -/
def findSession (m : ManagerState) (id : String) : Option SessionState :=
  (m.sessions.find? fun p => p.1 = id).map fun p => p.2

/-- `this.sessions.delete(id)`. -/
def removeSessionEntry (m : ManagerState) (id : String) : ManagerState :=
  { m with sessions := m.sessions.filter fun p => ¬p.1 = id }

/-- `this.sessions.set(id, s)`: replace in place, or append. -/
def setSessionEntry (m : ManagerState) (id : String) (s : SessionState) :
    ManagerState :=
  if (m.sessions.find? fun p => p.1 = id).isSome then
    { m with
        sessions := m.sessions.map fun p => if p.1 = id then (id, s) else p }
  else { m with sessions := m.sessions ++ [(id, s)] }

/-- `SessionManager.activeCount` (src/server/src/session.ts:407-413). -/
def activeCount (m : ManagerState) : Nat :=
  (m.sessions.filter fun p => ¬p.2.status = SessionStatus.dead).length

/-- `Session.attach` (src/server/src/session.ts:65-69), restricted to its
synchronous state effect: stores the process handle and its readline
interface, sets status `ready` and pushes a status envelope. -/
def attachProc (s : SessionState) (now : ℚ) : SessionState :=
  (pushEvent
      { s with
          processAlive := true
          stdoutRl := true
          status := SessionStatus.ready }
      "status" (EventData.statusData SessionStatus.ready) now).1

/-- An externally visible action `resumeSession` performs. -/
inductive MAction where
  | spawnResume (cliSessionId : String) (cwd : String)
  | sendInitialize
deriving DecidableEq

/-- The distinguishable errors `resumeSession` throws. -/
inductive ResumeErr where
  | noHistoryFile
  | noCliSessionId
  | maxSessionsReached
deriving DecidableEq

/-- The disk branch of `SessionManager.resumeSession`
(src/server/src/session.ts:521-609), reached when no live non-dead session
with the id exists (`hadExisting` records whether a dead entry was found,
to be deleted before the capacity check).  `fileOf` maps a session id to
its durable file's lines, or `none` when `fs.existsSync` fails.  Throws
(returns the error, manager unchanged, no action) when the file is absent
or `readSessionMeta` finds no CLI session id; otherwise recovers the
working directory from the file's first line when it is the meta line,
deletes the stale entry, checks capacity, constructs a fresh session over
the same file, loads the history into its buffer, spawns the CLI with
`--resume`, attaches, registers the session and sends the initialize
control request. -/
def resumeFromDisk (m : ManagerState) (fileOf : String → Option (List FileLine))
    (id : String) (now : ℚ) (hadExisting : Bool) :
    ManagerState × List MAction × Except ResumeErr SessionState :=
  match fileOf id with
  | none => (m, [], Except.error ResumeErr.noHistoryFile)
  | some content =>
    let meta := readSessionMeta id content
    match meta.cliSessionId with
    | none => (m, [], Except.error ResumeErr.noCliSessionId)
    | some cliSid =>
      let workingDirectory :=
        match content.head? with
        | some (FileLine.goodLine evt) =>
          match evt.data with
          | EventData.metaData cwd _ _ =>
            if evt.event = "meta" ∧ ¬cwd = "" then cwd else defaultCwd
          | _ => defaultCwd
        | _ => defaultCwd
      let m1 := if hadExisting then removeSessionEntry m id else m
      if m1.maxSessions ≤ activeCount m1 then
        (m1, [], Except.error ResumeErr.maxSessionsReached)
      else
        let sess0 := loadBufferFromFile (freshSession m1.bufferSize true) content
        let sess1 := attachProc sess0 now
        (setSessionEntry m1 id sess1,
         [MAction.spawnResume cliSid workingDirectory, MAction.sendInitialize],
         Except.ok sess1)

/-- `SessionManager.resumeSession` (src/server/src/session.ts:511-610):
a live non-dead session with the id is returned unchanged with no further
effect; otherwise the durable file is consulted. -/
def resumeSession (m : ManagerState) (fileOf : String → Option (List FileLine))
    (id : String) (now : ℚ) :
    ManagerState × List MAction × Except ResumeErr SessionState :=
  match findSession m id with
  | some s =>
    if s.status ≠ SessionStatus.dead then (m, [], Except.ok s)
    else resumeFromDisk m fileOf id now true
  | none => resumeFromDisk m fileOf id now false

/-- The arguments of the `push` operations of a sequence, in order. -/
def pushArgs (ops : List SOp) : List (String × EventData × ℚ) :=
  ops.filterMap fun op =>
    match op with
    | SOp.push e d t => some (e, d, t)
    | _ => none


theorem pushEvent_state (s : SessionState) (e : String) (d : EventData)
    (t : ℚ) :
    (pushEvent s e d t).1.eventCounter = s.eventCounter + 1
    ∧ (pushEvent s e d t).1.file
        = s.file ++ (if s.hasJsonl then [(pushEvent s e d t).2] else [])
    ∧ (pushEvent s e d t).1.fannedOut = s.fannedOut ++ [(pushEvent s e d t).2]
    ∧ (pushEvent s e d t).1.hasJsonl = s.hasJsonl
    ∧ (pushEvent s e d t).2.id = s.eventCounter + 1
    ∧ (pushEvent s e d t).2.event = e
    ∧ (pushEvent s e d t).2.data = d
    ∧ (pushEvent s e d t).2.timestamp = t := by
  refine ⟨rfl, ?_, rfl, rfl, rfl, rfl, rfl, rfl⟩
  cases hj : s.hasJsonl <;> simp [pushEvent, hj]

theorem runOps_cons_push (s : SessionState) (e : String) (d : EventData)
    (t : ℚ) (rest : List SOp) :
    runOps s (SOp.push e d t :: rest)
      = ((runOps (pushEvent s e d t).1 rest).1,
         (pushEvent s e d t).2 :: (runOps (pushEvent s e d t).1 rest).2) := by
  simp [runOps, applyOp]

theorem runOps_spec (ops : List SOp) : ∀ (s : SessionState),
    ((runOps s ops).2.map BufferedEvent.id
        = List.range' (s.eventCounter + 1) (pushCount ops))
    ∧ (runOps s ops).1.eventCounter = s.eventCounter + pushCount ops
    ∧ (runOps s ops).1.file
        = s.file ++ (if s.hasJsonl then (runOps s ops).2 else [])
    ∧ (runOps s ops).1.fannedOut = s.fannedOut ++ (runOps s ops).2
    ∧ (runOps s ops).1.hasJsonl = s.hasJsonl
    ∧ (runOps s ops).2.map (fun b => (b.event, b.data, b.timestamp))
        = pushArgs ops := by
  induction ops with
  | nil => intro s; simp [runOps, pushCount, pushArgs]
  | cons op rest ih =>
    intro s
    cases op with
    | push e d t =>
      obtain ⟨p1, p2, p3, p4, p5, p6, p7, p8⟩ := pushEvent_state s e d t
      obtain ⟨h1, h2, h3, h4, h5, h6⟩ := ih (pushEvent s e d t).1
      have hpc : pushCount (SOp.push e d t :: rest) = pushCount rest + 1 := by
        simp [pushCount, List.filter]
      have hpa : pushArgs (SOp.push e d t :: rest) = (e, d, t) :: pushArgs rest := by
        simp [pushArgs]
      rw [runOps_cons_push]
      refine ⟨?_, ?_, ?_, ?_, ?_, ?_⟩
      · rw [List.map_cons, p5, h1, p1, hpc, List.range'_succ]
      · rw [h2, p1, hpc]; omega
      · rw [h3, p2, p4]
        cases hj : s.hasJsonl <;> simp [hj]
      · rw [h4, p3]
        simp
      · rw [h5, p4]
      · rw [List.map_cons, h6, hpa, p6, p7, p8]
    | subscribeOp n =>
      have h := ih { s with
        subscribers :=
          if n ∈ s.subscribers then s.subscribers else s.subscribers ++ [n] }
      have hpc : pushCount (SOp.subscribeOp n :: rest) = pushCount rest := by
        simp [pushCount, List.filter]
      have hpa : pushArgs (SOp.subscribeOp n :: rest) = pushArgs rest := by
        simp [pushArgs]
      simp only [runOps, applyOp, Option.toList_none, List.nil_append]
      rw [hpc, hpa]
      simpa using h
    | unsubscribeOp n =>
      have h := ih { s with subscribers := s.subscribers.erase n }
      have hpc : pushCount (SOp.unsubscribeOp n :: rest) = pushCount rest := by
        simp [pushCount, List.filter]
      have hpa : pushArgs (SOp.unsubscribeOp n :: rest) = pushArgs rest := by
        simp [pushArgs]
      simp only [runOps, applyOp, Option.toList_none, List.nil_append]
      rw [hpc, hpa]
      simpa using h

/-- C1: For every sequence of append operations on one session's event log
(`pushEvent`), the sequence numbers assigned to the produced envelopes are
strictly increasing with no gaps, starting at 1, regardless of subscriber
registration or removal between appends, and a number once assigned is
never reused or reordered: over any operation sequence interleaving
appends with `subscribe`/`unsubscribe` calls on a freshly constructed
session, the ids of the produced envelopes, in production order, are
exactly `1, 2, …, k` (`k` = number of appends) — in particular pairwise
distinct (never reused) and strictly increasing in the order assigned
(never reordered). -/
theorem C1_pushEvent_ids_gapless (bufferSize : Nat) (hasJsonl : Bool)
    (ops : List SOp) :
    ((runOps (freshSession bufferSize hasJsonl) ops).2.map BufferedEvent.id
        = List.range' 1 (pushCount ops))
    ∧ ((runOps (freshSession bufferSize hasJsonl) ops).2.map
        BufferedEvent.id).Pairwise (· < ·) := by
  have h := (runOps_spec ops (freshSession bufferSize hasJsonl)).1
  have hc : (freshSession bufferSize hasJsonl).eventCounter = 0 := rfl
  rw [hc] at h
  refine ⟨h, ?_⟩
  rw [h]
  exact List.pairwise_lt_range' 1 (pushCount ops)

theorem updateStatus_cost (s : SessionState) (m : Msg) (now : ℚ) :
    (updateStatusFromMessage s m now).totalCostUsd
      = if m.type = some "result" then m.effectiveCost.getD s.totalCostUsd
        else s.totalCostUsd := by
  rcases hm : m.type with _ | t
  · simp [updateStatusFromMessage, hm]
  · simp only [updateStatusFromMessage, hm]
    by_cases h1 : t = "assistant"
    · subst h1
      split_ifs with hx <;> simp_all [pushEvent]
    · by_cases h2 : t = "control_request"
      · subst h2
        split_ifs with hx hy <;> simp_all [pushEvent]
      · by_cases h3 : t = "result"
        · subst h3
          rcases hc : m.costUsd with _ | c <;>
            rcases htc : m.totalCostUsd with _ | tc <;>
              split_ifs with hx <;>
                simp_all [Msg.effectiveCost, pushEvent]
        · simp_all

theorem updateStatus_result_status (s : SessionState) (m : Msg) (now : ℚ)
    (hd : s.status ≠ SessionStatus.dead) (ht : m.type = some "result") :
    (updateStatusFromMessage s m now).status = SessionStatus.ready := by
  simp only [updateStatusFromMessage, ht]
  rcases hc : m.costUsd with _ | c <;>
    rcases htc : m.totalCostUsd with _ | tc <;>
      simp_all [pushEvent]

theorem updateStatus_dead (s : SessionState) (m : Msg) (now : ℚ)
    (hd : s.status = SessionStatus.dead) :
    (updateStatusFromMessage s m now).status = SessionStatus.dead
    ∧ (updateStatusFromMessage s m now).buffer = s.buffer
    ∧ (updateStatusFromMessage s m now).fannedOut = s.fannedOut
    ∧ (updateStatusFromMessage s m now).file = s.file
    ∧ (updateStatusFromMessage s m now).eventCounter = s.eventCounter := by
  rcases hm : m.type with _ | t
  · simp [updateStatusFromMessage, hm, hd]
  · simp only [updateStatusFromMessage, hm]
    by_cases h1 : t = "assistant"
    · subst h1; simp_all
    · by_cases h2 : t = "control_request"
      · subst h2; simp_all
      · by_cases h3 : t = "result"
        · subst h3
          rcases hc : m.costUsd with _ | c <;>
            rcases htc : m.totalCostUsd with _ | tc <;>
              simp_all
        · simp_all

/-- A concrete session used for witnesses: a fresh session (buffer
capacity 10, persistence on) after two appends. -/
def sampleSession2 : SessionState :=
  (runOps (freshSession 10 true)
    [SOp.push "message" (EventData.otherData "a") 0,
     SOp.push "message" (EventData.otherData "b") 0]).1

/-- C2 counterexample: the claim requires `getHistory 0 = []`
(a suffix of length `min 0 (buffer length) = 0`), but on a one-entry
buffer the source's `this.buffer.slice(-lines)` evaluates
`slice(-0) = slice(0)` and returns the whole buffer: `getHistory 0` has
length 1, not `min 0 1 = 0`. -/
theorem C2_counterexample :
    (getHistory ((pushEvent (freshSession 10 true) "message"
          (EventData.otherData "a") 0).1) 0).length = 1
    ∧ ¬(getHistory ((pushEvent (freshSession 10 true) "message"
          (EventData.otherData "a") 0).1) 0).length
        = min 0 ((pushEvent (freshSession 10 true) "message"
          (EventData.otherData "a") 0).1).buffer.length := by
  decide

/-- C2 (amended): for every n ≥ 1 and every buffer state, `getHistory n`
returns exactly the suffix of the in-memory buffer of length
`min(n, buffer length)`, in ascending sequence order (the returned slice
of an id-sorted buffer is id-sorted); when the buffer holds fewer than n
entries the whole buffer is returned.  For n = 0, however, `getHistory 0`
returns the entire buffer, not the empty sequence (JavaScript
`slice(-0)` is `slice(0)`). -/
theorem C2_getHistory_suffix_amended (s : SessionState) (n : Nat) :
    (1 ≤ n →
      getHistory s n <:+ s.buffer
      ∧ (getHistory s n).length = min n s.buffer.length
      ∧ ((s.buffer.map BufferedEvent.id).Pairwise (· < ·) →
          ((getHistory s n).map BufferedEvent.id).Pairwise (· < ·)))
    ∧ getHistory s 0 = s.buffer := by
  constructor
  · intro hn
    by_cases h : s.buffer.length ≤ n
    · have hg : getHistory s n = s.buffer := by simp [getHistory, h]
      exact ⟨by rw [hg], by rw [hg]; omega, by rw [hg]; exact fun hp => hp⟩
    · have hneg : -(n : Int) < 0 := by omega
      have hg : getHistory s n = s.buffer.drop (s.buffer.length - n) := by
        simp only [getHistory, jsSlice, if_neg h, if_pos hneg]
        congr 1
        omega
      have hsuf : getHistory s n <:+ s.buffer := by
        rw [hg]; exact List.drop_suffix _ _
      refine ⟨hsuf, ?_, ?_⟩
      · rw [hg, List.length_drop]; omega
      · intro hp
        exact List.Pairwise.sublist (hsuf.sublist.map BufferedEvent.id) hp
  · by_cases h : s.buffer.length ≤ 0
    · simp [getHistory, h]
    · simp [getHistory, h, jsSlice]

/-- Witness for C2 (amended) at a concrete input: two-entry buffer,
`n = 1`. -/
theorem C2_witness :
    getHistory sampleSession2 1 <:+ sampleSession2.buffer
    ∧ (getHistory sampleSession2 1).length
        = min 1 sampleSession2.buffer.length :=
  ⟨((C2_getHistory_suffix_amended sampleSession2 1).1 (by decide)).1,
   ((C2_getHistory_suffix_amended sampleSession2 1).1 (by decide)).2.1⟩

/-- A turn-result message reporting a running cost total (or none). -/
def resultMsg (c : Option ℚ) : Msg :=
  { type := some "result", totalCostUsd := c }

/-- C4: For every session not in status Dead that processes an inbound
message tagged `'result'`, the status becomes Ready, and if the message
carries a cost figure the accumulated cost is set to exactly that figure
(last-write-wins, not summed); processing three result messages whose cost
fields are [absent, 0.02, 0.05] leaves accumulated cost 0.05, not 0.07. -/
theorem C4_result_ready_cost_last_write (s : SessionState) (m : Msg)
    (now : ℚ) (hd : s.status ≠ SessionStatus.dead)
    (ht : m.type = some "result") :
    (updateStatusFromMessage s m now).status = SessionStatus.ready
    ∧ (updateStatusFromMessage s m now).totalCostUsd
        = m.effectiveCost.getD s.totalCostUsd
    ∧ (updateStatusFromMessage
        (updateStatusFromMessage
          (updateStatusFromMessage (freshSession 10 true)
            (resultMsg none) 0)
          (resultMsg (some (2 / 100))) 0)
        (resultMsg (some (5 / 100))) 0).totalCostUsd = 5 / 100 := by
  refine ⟨updateStatus_result_status s m now hd ht, ?_, ?_⟩
  · rw [updateStatus_cost, if_pos ht]
  · rw [updateStatus_cost]
    simp [resultMsg, Msg.effectiveCost]

/-- Witness for C4 at a concrete input: a fresh (starting, hence
non-dead) session processing a result message reporting total cost 1. -/
theorem C4_witness :
    (updateStatusFromMessage (freshSession 10 true) (resultMsg (some 1))
        0).status = SessionStatus.ready
    ∧ (updateStatusFromMessage (freshSession 10 true) (resultMsg (some 1))
        0).totalCostUsd
      = (resultMsg (some 1)).effectiveCost.getD
          (freshSession 10 true).totalCostUsd :=
  ⟨(C4_result_ready_cost_last_write (freshSession 10 true)
      (resultMsg (some 1)) 0 (by decide) rfl).1,
   (C4_result_ready_cost_last_write (freshSession 10 true)
      (resultMsg (some 1)) 0 (by decide) rfl).2.1⟩

/-- C5 counterexample: the claim says `totalCostUsd` never decreases, but
the source assigns the reported figure unconditionally
(last-write-wins): a session that processes a result reporting total 5
and then a result reporting total 2 ends with cost 2 < 5 — the second
message lowered the accumulated cost. -/
theorem C5_counterexample :
    (updateStatusFromMessage
        (updateStatusFromMessage (freshSession 10 true)
          (resultMsg (some 5)) 0)
        (resultMsg (some 2)) 0).totalCostUsd
      < (updateStatusFromMessage (freshSession 10 true)
          (resultMsg (some 5)) 0).totalCostUsd := by
  decide

/-- C5 (amended): `totalCostUsd` only changes when a result message
carries a cost figure, and is then set to exactly that figure
(last-write-wins); it is therefore monotonically non-decreasing across a
processed message provided every cost figure that message reports is at
least the current accumulated cost (as is the case when the upstream
reports a running total), but a message reporting a lower figure lowers
it. -/
theorem C5_cost_monotone_under_monotone_reports (s : SessionState)
    (m : Msg) (now : ℚ)
    (h : ∀ c, m.effectiveCost = some c → s.totalCostUsd ≤ c) :
    s.totalCostUsd ≤ (updateStatusFromMessage s m now).totalCostUsd := by
  rw [updateStatus_cost]
  split_ifs with ht
  · rcases hc : m.effectiveCost with _ | c
    · simp [hc]
    · simpa [hc] using h c hc
  · exact le_refl _

/-- Witness for C5 (amended) at a concrete input: current cost 0, report
3 ≥ 0. -/
theorem C5_witness :
    (freshSession 10 true).totalCostUsd
      ≤ (updateStatusFromMessage (freshSession 10 true)
          (resultMsg (some 3)) 0).totalCostUsd :=
  C5_cost_monotone_under_monotone_reports (freshSession 10 true)
    (resultMsg (some 3)) 0 (by intro c hc; cases hc; decide)

/-- C9: Dead is terminal with respect to inbound messages: for every
session whose status is Dead, processing any further inbound message
(in particular one of type assistant, control_request or result) never
changes the status to any other state and never emits any envelope —
the buffer, the fan-out record, the durable file and the event counter
are all unchanged. -/
theorem C9_dead_is_terminal (s : SessionState) (m : Msg) (now : ℚ)
    (hd : s.status = SessionStatus.dead) :
    (updateStatusFromMessage s m now).status = SessionStatus.dead
    ∧ (updateStatusFromMessage s m now).buffer = s.buffer
    ∧ (updateStatusFromMessage s m now).fannedOut = s.fannedOut
    ∧ (updateStatusFromMessage s m now).file = s.file
    ∧ (updateStatusFromMessage s m now).eventCounter = s.eventCounter :=
  updateStatus_dead s m now hd

/-- Witness for C9 at a concrete input: a dead session processing an
assistant message. -/
theorem C9_witness :
    (updateStatusFromMessage
        { freshSession 10 true with status := SessionStatus.dead }
        { type := some "assistant" } 0).status = SessionStatus.dead
    ∧ (updateStatusFromMessage
        { freshSession 10 true with status := SessionStatus.dead }
        { type := some "assistant" } 0).buffer
      = ({ freshSession 10 true with
            status := SessionStatus.dead } : SessionState).buffer :=
  ⟨(C9_dead_is_terminal _ { type := some "assistant" } 0 rfl).1,
   (C9_dead_is_terminal _ { type := some "assistant" } 0 rfl).2.1⟩

theorem destroy_status_dead (x : SessionState) (e p : Bool) :
    (Session.destroy x e p).1.status = SessionStatus.dead := by
  unfold Session.destroy
  split_ifs <;> rfl

theorem destroy_of_dead (x : SessionState) (e p : Bool)
    (hx : x.status = SessionStatus.dead) :
    Session.destroy x e p = (x, []) := by
  have hx' : { x with status := SessionStatus.dead } = x := by
    cases x; simp_all
  unfold Session.destroy
  rw [if_pos (Or.inr hx), hx']

/-- C8: `destroy()` is idempotent: after `destroy()` completes the status
is Dead; calling `destroy()` a second time does not throw (it is a total
function), leaves the session in the exact same terminal state, sends no
further signal and releases no resource again (it performs no work at
all); a first `destroy()` of a live attached session does null the process
handle and release the readline interface and the JSONL stream; and
destroying an already-Dead session is a complete no-op (same state, no
signals). -/
theorem C8_destroy_idempotent (s : SessionState) (e1 p1 e2 p2 : Bool) :
    (Session.destroy s e1 p1).1.status = SessionStatus.dead
    ∧ Session.destroy (Session.destroy s e1 p1).1 e2 p2
        = ((Session.destroy s e1 p1).1, [])
    ∧ (s.status = SessionStatus.dead → Session.destroy s e1 p1 = (s, []))
    ∧ (s.status ≠ SessionStatus.dead → s.processAlive = true →
        (Session.destroy s e1 p1).1.processAlive = false
        ∧ (Session.destroy s e1 p1).1.stdoutRl = false
        ∧ (Session.destroy s e1 p1).1.hasJsonl = false) := by
  refine ⟨destroy_status_dead s e1 p1,
    destroy_of_dead _ e2 p2 (destroy_status_dead s e1 p1),
    fun hd => destroy_of_dead s e1 p1 hd,
    fun hd hp => ?_⟩
  unfold Session.destroy
  rw [if_neg]
  · exact ⟨rfl, rfl, rfl⟩
  · simp [hp, hd]

/-- A concrete live attached session used by witnesses. -/
def liveSession : SessionState :=
  { freshSession 10 true with
      status := SessionStatus.ready
      processAlive := true
      stdoutRl := true }

/-- Witness for C8 at a concrete input: a live attached session,
graceful exit within the grace period. -/
theorem C8_witness :
    (Session.destroy liveSession true true).1.status = SessionStatus.dead
    ∧ (Session.destroy liveSession true true).1.processAlive = false :=
  ⟨(C8_destroy_idempotent liveSession true true true true).1,
   ((C8_destroy_idempotent liveSession true true true true).2.2.2
      (by decide) rfl).1⟩

theorem load_goodLines (l : List BufferedEvent) : ∀ (s : SessionState),
    (l.map FileLine.goodLine).foldl loadLine s
      = { s with
            buffer := s.buffer ++ l
            eventCounter :=
              l.foldl (fun c ev => if c < ev.id then ev.id else c)
                s.eventCounter } := by
  induction l with
  | nil => intro s; cases s; simp
  | cons ev rest ih =>
    intro s
    simp only [List.map_cons, List.foldl_cons, loadLine]
    rw [ih]
    simp

theorem foldMax_range (l : List BufferedEvent) : ∀ (c : Nat),
    l.map BufferedEvent.id = List.range' (c + 1) l.length →
    l.foldl (fun acc ev => if acc < ev.id then ev.id else acc) c
      = c + l.length := by
  induction l with
  | nil => intro c _; simp
  | cons ev rest ih =>
    intro c h
    rw [List.map_cons, List.length_cons, List.range'_succ] at h
    injection h with h1 h2
    simp only [List.foldl_cons]
    have hid : (if c < ev.id then ev.id else c) = c + 1 := by
      rw [h1]; simp
    rw [hid, ih (c + 1) h2, List.length_cons]
    omega

theorem load_skip_malformed (fl : List FileLine) : ∀ (s : SessionState),
    fl.foldl loadLine s
      = ((goodEvents fl).map FileLine.goodLine).foldl loadLine s := by
  induction fl with
  | nil => intro s; simp [goodEvents]
  | cons l rest ih =>
    intro s
    cases l with
    | goodLine ev =>
      simp only [goodEvents, List.filterMap_cons] at *
      simp only [List.map_cons, List.foldl_cons]
      exact ih _
    | badLine r =>
      simp only [goodEvents, List.filterMap_cons] at *
      simp only [List.foldl_cons, loadLine]
      exact ih s

theorem pushCount_map_push (appends : List (String × EventData × ℚ)) :
    pushCount (appends.map fun a => SOp.push a.1 a.2.1 a.2.2)
      = appends.length := by
  induction appends with
  | nil => rfl
  | cons a rest ih =>
    simp only [List.map_cons, pushCount, List.filter, List.length_cons] at *
    omega

theorem pushArgs_map_push (appends : List (String × EventData × ℚ)) :
    pushArgs (appends.map fun a => SOp.push a.1 a.2.1 a.2.2) = appends := by
  induction appends with
  | nil => rfl
  | cons a rest ih =>
    simp only [List.map_cons, pushArgs, List.filterMap_cons] at *
    rw [ih]

theorem jsSlice_neg {α : Type} (arr : List α) (B : Nat) (hB : 1 ≤ B) :
    jsSlice arr (-(B : Int)) = arr.drop (arr.length - B) := by
  unfold jsSlice
  rw [if_pos (by omega : -(B : Int) < 0)]
  congr 1
  omega

theorem load_fresh_fields (l : List BufferedEvent) (B : Nat) :
    (loadBufferFromFile (freshSession B true) (l.map FileLine.goodLine)).buffer
        = (if B < l.length then jsSlice l (-(B : Int)) else l)
    ∧ (loadBufferFromFile (freshSession B true)
        (l.map FileLine.goodLine)).eventCounter
        = l.foldl (fun c ev => if c < ev.id then ev.id else c) 0
    ∧ (loadBufferFromFile (freshSession B true)
        (l.map FileLine.goodLine)).bufferSize = B
    ∧ (loadBufferFromFile (freshSession B true)
        (l.map FileLine.goodLine)).hasJsonl = true := by
  unfold loadBufferFromFile
  rw [load_goodLines]
  simp only [freshSession, List.nil_append]
  split_ifs <;> exact ⟨rfl, rfl, rfl, rfl⟩

/-- C6: Round-trip: for every sequence of appends on a fresh persisted
session, the durable file holds exactly the appended envelopes (same
kinds, payloads and timestamps, ids 1..n); loading that file via
`loadBufferFromFile` into a fresh log (of configured capacity ≥ 1) yields
a buffer equal to the originals up to eviction-bounded truncation keeping
the most recent (`drop (n - capacity)`); the restored event counter is n,
so the next append after the load is assigned sequence number
`max loaded sequence + 1 = n + 1`; and malformed lines are skipped
individually without aborting the load — loading any line list gives
exactly the result of loading its well-formed lines. -/
theorem C6_file_roundTrip (appends : List (String × EventData × ℚ))
    (B1 B2 : Nat) (hB2 : 1 ≤ B2) (e : String) (d : EventData) (now : ℚ) :
    (runAppends (freshSession B1 true) appends).file.map
        (fun b => (b.event, b.data, b.timestamp)) = appends
    ∧ (runAppends (freshSession B1 true) appends).file.map BufferedEvent.id
        = List.range' 1 appends.length
    ∧ (loadBufferFromFile (freshSession B2 true)
          ((runAppends (freshSession B1 true) appends).file.map
            FileLine.goodLine)).buffer
        = (runAppends (freshSession B1 true) appends).file.drop
            ((runAppends (freshSession B1 true) appends).file.length - B2)
    ∧ (loadBufferFromFile (freshSession B2 true)
          ((runAppends (freshSession B1 true) appends).file.map
            FileLine.goodLine)).eventCounter = appends.length
    ∧ (pushEvent (loadBufferFromFile (freshSession B2 true)
          ((runAppends (freshSession B1 true) appends).file.map
            FileLine.goodLine)) e d now).2.id = appends.length + 1
    ∧ (∀ fl : List FileLine,
        loadBufferFromFile (freshSession B2 true) fl
          = loadBufferFromFile (freshSession B2 true)
              ((goodEvents fl).map FileLine.goodLine)) := by
  obtain ⟨hids, hcnt, hfile, hfan, hjs, hargs⟩ :=
    runOps_spec (appends.map fun a => SOp.push a.1 a.2.1 a.2.2)
      (freshSession B1 true)
  have hfile' : (runAppends (freshSession B1 true) appends).file
      = (runOps (freshSession B1 true)
          (appends.map fun a => SOp.push a.1 a.2.1 a.2.2)).2 := by
    rw [runAppends]
    simpa [freshSession] using hfile
  have hids' : (runAppends (freshSession B1 true) appends).file.map
      BufferedEvent.id = List.range' 1 appends.length := by
    rw [hfile']
    simpa [freshSession, pushCount_map_push] using hids
  have hlen : (runAppends (freshSession B1 true) appends).file.length
      = appends.length := by
    have := congrArg List.length hids'
    simpa using this
  obtain ⟨hlb, hlc, _, _⟩ :=
    load_fresh_fields (runAppends (freshSession B1 true) appends).file B2
  have hcounter : (loadBufferFromFile (freshSession B2 true)
      ((runAppends (freshSession B1 true) appends).file.map
        FileLine.goodLine)).eventCounter = appends.length := by
    rw [hlc]
    have := foldMax_range (runAppends (freshSession B1 true) appends).file 0
      (by rw [hids', hlen])
    simpa [hlen] using this
  refine ⟨?_, hids', ?_, hcounter, ?_, ?_⟩
  · rw [hfile']
    rw [hargs, pushArgs_map_push]
  · rw [hlb]
    by_cases hc : B2 <
        (runAppends (freshSession B1 true) appends).file.length
    · rw [if_pos hc, jsSlice_neg _ B2 hB2]
    · rw [if_neg hc]
      have : (runAppends (freshSession B1 true) appends).file.length - B2
          = 0 := by omega
      rw [this, List.drop_zero]
  · have hid : (pushEvent (loadBufferFromFile (freshSession B2 true)
        ((runAppends (freshSession B1 true) appends).file.map
          FileLine.goodLine)) e d now).2.id
        = (loadBufferFromFile (freshSession B2 true)
            ((runAppends (freshSession B1 true) appends).file.map
              FileLine.goodLine)).eventCounter + 1 := rfl
    rw [hid, hcounter]
  · intro fl
    have h := load_skip_malformed fl (freshSession B2 true)
    simp only [loadBufferFromFile, h]

/-- Witness for C6 at a concrete input: one append, both capacities 10;
the restored event counter is 1. -/
theorem C6_witness :
    (loadBufferFromFile (freshSession 10 true)
        ((runAppends (freshSession 10 true)
            [("message", EventData.otherData "a", 0)]).file.map
          FileLine.goodLine)).eventCounter = 1 :=
  (C6_file_roundTrip [("message", EventData.otherData "a", 0)] 10 10
    (by decide) "message" (EventData.otherData "b") 0).2.2.2.1

/-- C10 counterexample: with buffer capacity 1, the durable file of a
created session that pushed one envelope has two lines (meta plus one
envelope); loading it trims the buffer to the most recent entry, so the
rehydrated buffer does NOT begin with the sequence-0 meta envelope — the
claim's unconditional "therefore begins with" fails under truncation. -/
theorem C10_counterexample :
    ¬(loadBufferFromFile (freshSession 1 true)
        ((createdFile 0 "/w" none none 10
            [SOp.push "message" (EventData.otherData "a") 0]).map
          FileLine.goodLine)).buffer.head?
      = some (metaEvent 0 "/w" none none) := by
  decide

/-- C10 (amended): the metadata first line `createSession` writes is
serialized with sequence number 0 and kind 'meta', and
`loadBufferFromFile` parses it as an ordinary event; provided the durable
file holds no more lines than the configured buffer size (otherwise
trimming keeps only the most recent entries and evicts it), a resumed
session's rehydrated buffer begins with that sequence-0 'meta' envelope,
which is returned by `getHistory`, which no live subscriber of the
original session ever received (it was written around `pushEvent`, whose
fan-out only ever delivers envelopes with ids ≥ 1), and which — having
id 0 — does not advance the sequence counter. -/
theorem C10_meta_line_amended (mNow : ℚ) (cwd : String)
    (model resumeId : Option String) (B1 B2 : Nat) (ops : List SOp)
    (hfit : (createdFile mNow cwd model resumeId B1 ops).length ≤ B2) :
    (createdFile mNow cwd model resumeId B1 ops).head?
        = some (metaEvent mNow cwd model resumeId)
    ∧ (metaEvent mNow cwd model resumeId).id = 0
    ∧ (metaEvent mNow cwd model resumeId).event = "meta"
    ∧ (loadBufferFromFile (freshSession B2 true)
          ((createdFile mNow cwd model resumeId B1 ops).map
            FileLine.goodLine)).buffer
        = createdFile mNow cwd model resumeId B1 ops
    ∧ (loadBufferFromFile (freshSession B2 true)
          ((createdFile mNow cwd model resumeId B1 ops).map
            FileLine.goodLine)).buffer.head?
        = some (metaEvent mNow cwd model resumeId)
    ∧ getHistory (loadBufferFromFile (freshSession B2 true)
          ((createdFile mNow cwd model resumeId B1 ops).map
            FileLine.goodLine)) B2
        = (loadBufferFromFile (freshSession B2 true)
            ((createdFile mNow cwd model resumeId B1 ops).map
              FileLine.goodLine)).buffer
    ∧ (loadBufferFromFile (freshSession B2 true)
          ((createdFile mNow cwd model resumeId B1 ops).map
            FileLine.goodLine)).eventCounter = pushCount ops
    ∧ metaEvent mNow cwd model resumeId
        ∉ (runOps (freshSession B1 true) ops).1.fannedOut := by
  obtain ⟨hids, hcnt, hfile, hfan, hjs, hargs⟩ :=
    runOps_spec ops (freshSession B1 true)
  have hfile' : (runOps (freshSession B1 true) ops).1.file
      = (runOps (freshSession B1 true) ops).2 := by
    simpa [freshSession] using hfile
  have hids' : (runOps (freshSession B1 true) ops).1.file.map
      BufferedEvent.id = List.range' 1 (pushCount ops) := by
    rw [hfile']
    simpa [freshSession] using hids
  have hflen : (runOps (freshSession B1 true) ops).1.file.length
      = pushCount ops := by
    have := congrArg List.length hids'
    simpa using this
  obtain ⟨hlb, hlc, _, _⟩ :=
    load_fresh_fields (createdFile mNow cwd model resumeId B1 ops) B2
  have hbuf : (loadBufferFromFile (freshSession B2 true)
      ((createdFile mNow cwd model resumeId B1 ops).map
        FileLine.goodLine)).buffer
      = createdFile mNow cwd model resumeId B1 ops := by
    rw [hlb, if_neg (by omega)]
  have hcounter : (loadBufferFromFile (freshSession B2 true)
      ((createdFile mNow cwd model resumeId B1 ops).map
        FileLine.goodLine)).eventCounter = pushCount ops := by
    rw [hlc]
    show (createdFile mNow cwd model resumeId B1 ops).foldl
        (fun c ev => if c < ev.id then ev.id else c) 0 = pushCount ops
    rw [createdFile, List.foldl_cons]
    have hstep : (if (0 : Nat) < (metaEvent mNow cwd model resumeId).id
        then (metaEvent mNow cwd model resumeId).id else 0) = 0 := by
      simp [metaEvent]
    rw [hstep]
    have := foldMax_range (runOps (freshSession B1 true) ops).1.file 0
      (by rw [hids', hflen])
    simpa [hflen] using this
  refine ⟨rfl, rfl, rfl, hbuf, ?_, ?_, hcounter, ?_⟩
  · rw [hbuf]; rfl
  · have hlen2 : (loadBufferFromFile (freshSession B2 true)
        ((createdFile mNow cwd model resumeId B1 ops).map
          FileLine.goodLine)).buffer.length ≤ B2 := by
      rw [hbuf]; exact hfit
    simp [getHistory, hlen2]
  · intro hmem
    have hfan' : (runOps (freshSession B1 true) ops).1.fannedOut
        = (runOps (freshSession B1 true) ops).2 := by
      simpa [freshSession] using hfan
    rw [hfan'] at hmem
    have h0 : (metaEvent mNow cwd model resumeId).id
        ∈ (runOps (freshSession B1 true) ops).2.map BufferedEvent.id :=
      List.mem_map_of_mem BufferedEvent.id hmem
    rw [show (freshSession B1 true).eventCounter = 0 from rfl] at hids
    rw [hids] at h0
    have : (metaEvent mNow cwd model resumeId).id = 0 := rfl
    rw [this] at h0
    rw [List.mem_range'_1] at h0
    omega

/-- Witness for C10 (amended) at a concrete input: a created session with
no appends; its one-line file fits in capacity 10, and the rehydrated
buffer begins with the sequence-0 meta envelope. -/
theorem C10_witness :
    (loadBufferFromFile (freshSession 10 true)
        ((createdFile 0 "/w" none none 10 []).map
          FileLine.goodLine)).buffer.head?
      = some (metaEvent 0 "/w" none none) :=
  (C10_meta_line_amended 0 "/w" none none 10 10 [] (by decide)).2.2.2.2.1

theorem foldl_unsub_self (c : Nat) (acts : List SubAction)
    (hacts : ∀ a ∈ acts, a = SubAction.unsubAct c) :
    ∀ (P Q : List Nat), P.Nodup → c ∉ Q →
      (acts.foldl applySubAction (P, Q)).2 = Q
      ∧ ((acts.foldl applySubAction (P, Q)).1 = P.erase c
         ∨ (acts.foldl applySubAction (P, Q)).1 = P) := by
  induction acts with
  | nil => intro P Q _ _; exact ⟨rfl, Or.inr rfl⟩
  | cons a rest ih =>
    intro P Q hP hQ
    have ha : a = SubAction.unsubAct c := hacts a (by simp)
    subst ha
    have hrest : ∀ a ∈ rest, a = SubAction.unsubAct c := fun a ha =>
      hacts a (by simp [ha])
    simp only [List.foldl_cons, applySubAction]
    rw [List.erase_of_not_mem hQ]
    have hPe : (P.erase c).Nodup := List.Nodup.erase c hP
    obtain ⟨h2, h1⟩ := ih hrest (P.erase c) Q hPe hQ
    refine ⟨h2, ?_⟩
    rcases h1 with h1 | h1
    · left
      rw [h1]
      have : c ∉ P.erase c := by
        intro hc
        exact ((hP.mem_erase_iff).mp hc).1 rfl
      rw [List.erase_of_not_mem this]
    · left; exact h1

theorem deliverLoop_self_unsub (beh : Nat → List SubAction)
    (hbeh : ∀ c a, a ∈ beh c → a = SubAction.unsubAct c) :
    ∀ (q : List Nat) (fuel : Nat) (p inv : List Nat),
      q.length ≤ fuel → (p ++ q).Nodup →
      (deliverLoop beh fuel p q inv).1 = inv ++ q := by
  intro q
  induction q with
  | nil =>
    intro fuel p inv _ _
    cases fuel <;> simp [deliverLoop]
  | cons c rest ih =>
    intro fuel p inv hfuel hnd
    cases fuel with
    | zero => simp at hfuel
    | succ f =>
      have hps : (p ++ [c]).Nodup := by
        refine List.Nodup.sublist ?_ hnd
        refine List.Sublist.append_left ?_ p
        exact List.cons_sublist_cons.mpr (List.nil_sublist rest)
      have hcrest : c ∉ rest := by
        rcases List.nodup_append.mp hnd with ⟨_, hcr, _⟩
        exact (List.nodup_cons.mp hcr).1
      obtain ⟨h2, h1⟩ :=
        foldl_unsub_self c (beh c) (hbeh c) (p ++ [c]) rest hps hcrest
      simp only [deliverLoop]
      rw [h2]
      have hfit : rest.length ≤ f := by
        simp at hfuel; omega
      have hnd2 : (((beh c).foldl applySubAction (p ++ [c], rest)).1
          ++ rest).Nodup := by
        rcases h1 with h1 | h1
        · rw [h1]
          have hsub : ((p ++ [c]).erase c ++ rest).Sublist
              ((p ++ [c]) ++ rest) :=
            List.Sublist.append_right (List.erase_sublist c (p ++ [c])) rest
          have heq : (p ++ [c]) ++ rest = p ++ (c :: rest) := by simp
          rw [heq] at hsub
          exact List.Nodup.sublist hsub hnd
        · rw [h1]
          have heq : (p ++ [c]) ++ rest = p ++ (c :: rest) := by simp
          rw [heq]; exact hnd
      rw [ih f ((beh c).foldl applySubAction (p ++ [c], rest)).1
        (inv ++ [c]) hfit hnd2]
      simp

/-- A concrete subscriber behaviour: callback 1, when invoked, subscribes
callback 3 and unsubscribes callback 2; every other callback does
nothing. -/
def behC3 (n : Nat) : List SubAction :=
  if n = 1 then [SubAction.subAct 3, SubAction.unsubAct 2] else []

/-- C3 counterexample: delivering one envelope to the subscriber set
[1, 2] where callback 1 subscribes callback 3 and unsubscribes
callback 2 invokes exactly [1, 3]: callback 3, registered DURING the
delivery, receives the envelope (the live `Set` is iterated and additions
are visited), and callback 2, registered before the delivery, is skipped
— both halves of the claim fail. -/
theorem C3_counterexample :
    3 ∈ (deliver behC3 2 [1, 2]).1 ∧ 2 ∉ (deliver behC3 2 [1, 2]).1 := by
  decide

/-- C3 (amended): the fan-out loop iterates the live subscriber `Set`
with no snapshot.  When every callback at most unsubscribes itself during
delivery, no listener registered before the delivery is skipped or
invoked twice: the invocation sequence is exactly the registered set in
registration order.  But a callback registered during a delivery DOES
receive that envelope, and a callback that unsubscribes a
not-yet-invoked listener causes that listener to be skipped, as the
concrete run [1,2] ↦ invoked [1,3] shows. -/
theorem C3_live_set_delivery_amended :
    (∀ (subs : List Nat) (beh : Nat → List SubAction),
        (∀ c a, a ∈ beh c → a = SubAction.unsubAct c) → subs.Nodup →
        (deliver beh subs.length subs).1 = subs)
    ∧ (deliver behC3 2 [1, 2]).1 = [1, 3] := by
  constructor
  · intro subs beh hbeh hnd
    have := deliverLoop_self_unsub beh hbeh subs subs.length [] []
      (le_refl _) (by simpa using hnd)
    simpa [deliver] using this
  · decide

/-- Witness for C3 (amended) at a concrete input: two passive callbacks
are each invoked exactly once, in registration order. -/
theorem C3_witness :
    (deliver (fun _ => ([] : List SubAction)) 2 [5, 7]).1 = [5, 7] :=
  C3_live_set_delivery_amended.1 [5, 7] (fun _ => [])
    (fun c a ha => by cases ha) (by decide)

/-- C7: `resumeSession(id)`: if a live non-Dead session with that id
exists, it is returned unchanged with the manager untouched and no
process spawned; otherwise, when the durable file is absent, or when it
contains no captured CLI session_id, `resumeSession` fails with the
corresponding not-found-class error, spawns no process and registers no
session — the manager's state is returned unchanged and the action list
is empty. -/
theorem C7_resume_not_found (m : ManagerState)
    (fileOf : String → Option (List FileLine)) (id : String) (now : ℚ) :
    (∀ s, findSession m id = some s → s.status ≠ SessionStatus.dead →
        resumeSession m fileOf id now = (m, [], Except.ok s))
    ∧ ((∀ s, findSession m id = some s → s.status = SessionStatus.dead) →
        fileOf id = none →
        resumeSession m fileOf id now
          = (m, [], Except.error ResumeErr.noHistoryFile))
    ∧ (∀ content,
        (∀ s, findSession m id = some s → s.status = SessionStatus.dead) →
        fileOf id = some content →
        (readSessionMeta id content).cliSessionId = none →
        resumeSession m fileOf id now
          = (m, [], Except.error ResumeErr.noCliSessionId)) := by
  refine ⟨?_, ?_, ?_⟩
  · intro s hs hlive
    simp [resumeSession, hs, hlive]
  · intro hdead hfile
    rcases hfind : findSession m id with _ | s
    · simp [resumeSession, hfind, resumeFromDisk, hfile]
    · have hd := hdead s hfind
      simp [resumeSession, hfind, hd, resumeFromDisk, hfile]
  · intro content hdead hfile hmeta
    rcases hfind : findSession m id with _ | s
    · simp [resumeSession, hfind, resumeFromDisk, hfile, hmeta]
    · have hd := hdead s hfind
      simp [resumeSession, hfind, hd, resumeFromDisk, hfile, hmeta]

/-- Witness for C7 at a concrete input: an empty registry and no durable
file for the id — resume fails with the file-not-found error and changes
nothing. -/
theorem C7_witness :
    resumeSession
        { sessions := [], maxSessions := 10, bufferSize := 10 }
        (fun _ => none) "sess_a" 0
      = ({ sessions := [], maxSessions := 10, bufferSize := 10 }, [],
         Except.error ResumeErr.noHistoryFile) :=
  (C7_resume_not_found
      { sessions := [], maxSessions := 10, bufferSize := 10 }
      (fun _ => none) "sess_a" 0).2.1
    (fun s hs => by simp [findSession] at hs) rfl
